import Mathlib

set_option maxRecDepth 100000

/-!
Verification of `libdates/civil.go`: the canonical civil-date difference
engine (`DiffYMD` / `DiffYMDOpts` / `YMDiff.Apply`) and its helpers
(`civilDays`, `floorDiv`, `absInt`, `inCivilRange`).

Modelling choices:
* Go machine integers are modelled as unbounded `Int` (all quantities in the
  guarded algorithm are far below 2^63).  Go's truncating `/` and `%` are
  `Int.tdiv` / `Int.tmod`; Lean's `/` and `%` on `Int` (Euclidean, which for
  positive literal divisors coincides with floor division) are used only
  where the Go standard library itself performs floor-style normalization.
* A Go `time.Time` in UTC is modelled as `GoTime`: the normalized civil
  triple that `Year()/Month()/Day()` return plus the wall-clock nanoseconds
  since midnight.  Construction of times (`time.Date`, `AddDate`) goes
  through `dateFromYMD`, which mirrors the Go runtime: months are
  normalized by floor division (`norm`), and the resulting possibly
  overflowing day is resolved by converting to a serial day count and back
  (`civilFromDays`, modelled on Go's `absDate` year cascade and month
  table).  The serial day scale is the repository's own `civilDays`
  (Howard Hinnant's algorithm), which is Go's day count up to a constant
  offset — only differences ever matter, as the package documentation
  notes.
-/

/-- Civil date triple as extracted by Go's `Year()`, `Month()`, `Day()`. -/
structure Date where
  year : Int
  month : Int
  day : Int
deriving DecidableEq, Repr

/-- A Go `time.Time` at location UTC: its civil date and the wall-clock
nanoseconds since midnight.  Real Go times always carry a normalized date
triple and a clock in `[0, 86400e9)`. -/
structure GoTime where
  date : Date
  clock : Int
deriving DecidableEq, Repr

/-- `floorDiv` from civil.go: floor division built from Go's truncating
`/` and `%`. -/
def floorDiv (a b : Int) : Int :=
  let q := Int.tdiv a b
  let r := Int.tmod a b
  if r ≠ 0 ∧ ((0 < r) ≠ (0 < b)) then q - 1 else q

/-- `civilDays` from civil.go: Howard Hinnant's civil serial-day count
(proleptic Gregorian), linear in the day argument. -/
def civilDays (y m d : Int) : Int :=
  let yy := if m ≤ 2 then y - 1 else y
  let mm := if m ≤ 2 then m + 12 else m
  let era := floorDiv yy 400
  let yoe := yy - era * 400
  let doy := Int.tdiv (153 * (mm - 3) + 2) 5 + d - 1
  let doe := yoe * 365 + Int.tdiv yoe 4 - Int.tdiv yoe 100 + doy
  era * 146097 + doe

/-- `absInt` from civil.go. -/
def absInt (x : Int) : Int := if x < 0 then -x else x

/-- Go stdlib `isLeap` (time/time.go), used by `AddDate`'s normalization. -/
def isLeap (y : Int) : Bool :=
  Int.tmod y 4 == 0 && (Int.tmod y 100 != 0 || Int.tmod y 400 == 0)

/-- Go stdlib `daysBefore` table: cumulative days before month `m` in a
non-leap year (`daysBefore 0 = 0`, …, `daysBefore 12 = 365`). -/
def daysBefore (m : Int) : Int :=
  if m ≤ 0 then 0
  else if m = 1 then 31
  else if m = 2 then 59
  else if m = 3 then 90
  else if m = 4 then 120
  else if m = 5 then 151
  else if m = 6 then 181
  else if m = 7 then 212
  else if m = 8 then 243
  else if m = 9 then 273
  else if m = 10 then 304
  else if m = 11 then 334
  else 365

/-- Go stdlib `daysIn`: the number of days of month `m` of year `y`. -/
def daysInMonth (y m : Int) : Int :=
  if m = 2 then (if isLeap y then 29 else 28)
  else daysBefore m - daysBefore (m - 1)

/-- The year cascade of Go's `absDate` (time/time.go): from a serial day
count (on the repository's `civilDays` scale) recover the year and the
0-based day of that year.  `z - 306` is the number of days since
`0001-01-01` because `civilDays 1 1 1 = 306`.  The divisions are the
400/100/4/1-year steps of the Go runtime (`n -= n >> 2` is `n - n / 4`). -/
def absYearYday (z : Int) : Int × Int :=
  let d0 := z - 306
  let n400 := d0 / 146097
  let r400 := d0 - 146097 * n400
  let q100 := r400 / 36524
  let n100 := q100 - q100 / 4
  let r100 := r400 - 36524 * n100
  let n4 := r100 / 1461
  let r4 := r100 - 1461 * n4
  let q1 := r4 / 365
  let n1 := q1 - q1 / 4
  let yday := r4 - 365 * n1
  (400 * n400 + 100 * n100 + 4 * n4 + n1 + 1, yday)

/-- The month/day part of Go's `absDate`: recover month (1-based) and day
of month from the year and the 0-based day of year, using the
`daysBefore` table and the leap-day special case. -/
def monthDayFromYday (y yday : Int) : Int × Int :=
  if isLeap y ∧ yday = 59 then (2, 29)
  else
    let day := if isLeap y ∧ 59 < yday then yday - 1 else yday
    let mEst := day / 31
    if daysBefore (mEst + 1) ≤ day then
      (mEst + 2, day - daysBefore (mEst + 1) + 1)
    else
      (mEst + 1, day - daysBefore mEst + 1)

/-- Date extraction from a serial day count, modelling Go's `absDate`. -/
def civilFromDays (z : Int) : Date :=
  let yy := absYearYday z
  let md := monthDayFromYday yy.1 yy.2
  ⟨yy.1, md.1, md.2⟩

/-- The serial day count of a date triple (the repository's `civilDays`
applied to the extracted fields, as civil.go does on lines 179-180). -/
def dateSerial (t : Date) : Int := civilDays t.year t.month t.day

/-- Go's `time.Date(y, mo, d, …, time.UTC)` date normalization: the month
is normalized by floor division (Go's `norm`), then the possibly
out-of-range day is absorbed through the serial day scale. -/
def dateFromYMD (y mo d : Int) : Date :=
  let ny := y + (mo - 1) / 12
  let nmo := (mo - 1) % 12 + 1
  civilFromDays (civilDays ny nmo d)

/-- Nanoseconds per civil day. -/
def nsPerDay : Int := 86400000000000

/-- The instant of a UTC `GoTime` on a nanosecond scale; Go's `After`
compares instants. -/
def instant (t : GoTime) : Int := nsPerDay * dateSerial t.date + t.clock

/-- Go's `Time.After`. -/
def after (a b : GoTime) : Bool := decide (instant b < instant a)

/-- Go's `Time.AddDate(years, months, days)`: rebuild via `time.Date` from
the extracted fields plus the offsets, keeping the wall clock. -/
def addDate (t : GoTime) (y mo d : Int) : GoTime :=
  ⟨dateFromYMD (t.date.year + y) (t.date.month + mo) (t.date.day + d), t.clock⟩

/-- `time.Date(t.Year(), t.Month(), t.Day(), 0, 0, 0, 0, time.UTC)`:
normalization to UTC midnight as done by civil.go lines 142-143 and 204. -/
def goMidnight (t : GoTime) : GoTime :=
  ⟨dateFromYMD t.date.year t.date.month t.date.day, 0⟩

/-- `AddMonthsFn` from civil.go. -/
def AddMonthsFn : Type := GoTime → Int → GoTime

/-- The default month policy of civil.go (lines 137-139 and 201-203):
`t.AddDate(0, m, 0)`. -/
def defaultAddMonths : AddMonthsFn := fun t m => addDate t 0 m 0

/-- `YMDiff` from civil.go. -/
structure YMDiff where
  Years : Int
  Months : Int
  Days : Int
deriving DecidableEq, Repr

/-- `DiffOptions` from civil.go; a nil `AddMonths` is `none`. -/
structure DiffOptions where
  AddMonths : Option AddMonthsFn
  MaxSpanMonths : Int
  MaxSpanYears : Int
  MaxSpanDays : Int

/-- The three sentinel errors of civil.go. -/
inductive DiffError where
  | startAfterEnd
  | yearOutOfRange
  | spanTooLarge
deriving DecidableEq, Repr

/-- `inCivilRange` from civil.go. -/
def inCivilRange (t : GoTime) : Bool :=
  decide (1 ≤ t.date.year) && decide (t.date.year ≤ 9999)

/-- Lines 164-176 of civil.go: the initial arithmetic month span and the
single-step backward/forward anchor correction.  Returns the month count
and anchor entering the leftover-day computation. -/
def correctedMA (addMonths : AddMonthsFn) (s e : GoTime) : Int × GoTime :=
  let m0 := (e.date.year - s.date.year) * 12 + (e.date.month - s.date.month)
  let anchor0 := addMonths s m0
  let p1 := if after anchor0 e then (m0 - 1, addMonths s (m0 - 1)) else (m0, anchor0)
  let anPlus := addMonths s (p1.1 + 1)
  if after anPlus e then p1 else (p1.1 + 1, anPlus)

/-- Lines 164-194 of civil.go: the unguarded core of `DiffYMDOpts` —
anchor correction, leftover days via the civil serial, the defensive
negative-leftover recomputation, and the final split of the month count. -/
def diffCore (addMonths : AddMonthsFn) (s e : GoTime) : YMDiff :=
  let p := correctedMA addMonths s e
  let ad := civilDays p.2.date.year p.2.date.month p.2.date.day
  let ed := civilDays e.date.year e.date.month e.date.day
  let dayDelta := ed - ad
  let q :=
    if dayDelta < 0 then
      let anchor2 := addMonths s (p.1 - 1)
      (p.1 - 1, ed - civilDays anchor2.date.year anchor2.date.month anchor2.date.day)
    else (p.1, dayDelta)
  ⟨Int.tdiv q.1 12, Int.tmod q.1 12, q.2⟩

/-- `DiffYMDOpts` from civil.go. -/
def DiffYMDOpts (start endd : GoTime) (opts : DiffOptions) : Except DiffError YMDiff :=
  let addMonths := opts.AddMonths.getD defaultAddMonths
  let s := goMidnight start
  let e := goMidnight endd
  if after s e then .error .startAfterEnd
  else if !inCivilRange s || !inCivilRange e then .error .yearOutOfRange
  else
    let monthsAbs := absInt ((e.date.year - s.date.year) * 12 + (e.date.month - s.date.month))
    if 0 < opts.MaxSpanMonths ∧ opts.MaxSpanMonths < monthsAbs then .error .spanTooLarge
    else if opts.MaxSpanMonths ≤ 0 ∧ 0 < opts.MaxSpanYears ∧
        opts.MaxSpanYears < absInt (e.date.year - s.date.year) then .error .spanTooLarge
    else .ok (diffCore addMonths s e)

/-- `DiffYMD` from civil.go: `DiffYMDOpts` with the default 2000-year
guard. -/
def DiffYMD (start endd : GoTime) (addMonths : Option AddMonthsFn) : Except DiffError YMDiff :=
  DiffYMDOpts start endd ⟨addMonths, 0, 2000, 0⟩

/-- `YMDiff.Apply` from civil.go lines 200-208. -/
def YMDiff.Apply (d : YMDiff) (start : GoTime) (addMonths : Option AddMonthsFn) : GoTime :=
  let am := addMonths.getD defaultAddMonths
  let s := goMidnight start
  let m := d.Years * 12 + d.Months
  let anchor := am s m
  addDate anchor 0 0 d.Days

/-- Leap indicator as an integer, for arithmetic reasoning. -/
def leapBit (y : Int) : Int := if isLeap y then 1 else 0

/-- Serial day of January 1 of year `y`. -/
def jan1 (y : Int) : Int := civilDays y 1 1

/-- Cumulative days (within a year, leap-aware) before month `m`. -/
def Ftab (y m : Int) : Int := daysBefore (m - 1) + (if 3 ≤ m then leapBit y else 0)

/-- A normalized date triple, as Go's extraction always produces. -/
def ValidDate (t : Date) : Prop :=
  1 ≤ t.month ∧ t.month ≤ 12 ∧ 1 ≤ t.day ∧ t.day ≤ daysInMonth t.year t.month

/-- Linear month index (months since month 0 of year 0). -/
def monthIndex (y mo : Int) : Int := 12 * y + mo - 1

/-- Serial day of the first of the month with linear index `j`. -/
def monthFirst (j : Int) : Int := civilDays (j / 12) (j % 12 + 1) 1

/-- A month policy is well formed if, fed a midnight time, it returns a
Go-representable time at midnight — as every real Go `AddMonthsFn`
(returning a `time.Time` with zero clock) does. -/
def WellFormedPolicy (f : AddMonthsFn) : Prop :=
  ∀ t m, t.clock = 0 → ValidDate ((f t m).date) ∧ (f t m).clock = 0

/-- Monotonicity in the month argument: the precondition the package
documentation states for custom `AddMonthsFn` values. -/
def MonotonePolicy (f : AddMonthsFn) : Prop :=
  ∀ t m, instant (f t m) ≤ instant (f t (m + 1))

/-- A monotone custom policy that shifts every request by 100 months. -/
def shiftPolicy : AddMonthsFn := fun t m => defaultAddMonths t (m + 100)

instance : DecidableEq (Except DiffError YMDiff) := fun
  | .ok a, .ok b => decidable_of_iff (a = b) (by simp)
  | .ok _, .error _ => isFalse (by simp)
  | .error _, .ok _ => isFalse (by simp)
  | .error a, .error b => decidable_of_iff (a = b) (by simp)

-- Sanity checks of the embedding against the repository's own test data
-- (civil_test.go).
example : civilDays 2024 1 2 - civilDays 2024 1 1 = 1 := by decide
example : civilDays 2024 2 1 - civilDays 2024 1 31 = 1 := by decide
example : civilDays 2024 3 1 - civilDays 2024 2 28 = 2 := by decide
example : civilDays 2023 3 1 - civilDays 2023 2 28 = 1 := by decide
example : civilDays 2024 1 1 - civilDays 2020 1 1 = 1461 := by decide
example : civilFromDays (civilDays 2024 2 29) = ⟨2024, 2, 29⟩ := by decide
example : civilFromDays (civilDays 2023 12 31) = ⟨2023, 12, 31⟩ := by decide
example : civilFromDays (civilDays 1 1 1) = ⟨1, 1, 1⟩ := by decide
example : dateFromYMD 2023 2 31 = ⟨2023, 3, 3⟩ := by decide
example : dateFromYMD 2024 2 31 = ⟨2024, 3, 2⟩ := by decide
example : DiffYMD ⟨⟨2024, 2, 29⟩, 0⟩ ⟨⟨2025, 2, 28⟩, 0⟩ none = .ok ⟨0, 11, 30⟩ := by decide
example : DiffYMD ⟨⟨2020, 6, 30⟩, 0⟩ ⟨⟨2020, 8, 31⟩, 0⟩ none = .ok ⟨0, 2, 1⟩ := by decide
example : DiffYMD ⟨⟨2017, 7, 14⟩, 0⟩ ⟨⟨2024, 1, 24⟩, 0⟩ none = .ok ⟨6, 6, 10⟩ := by decide
example : DiffYMD ⟨⟨2025, 10, 31⟩, 0⟩ ⟨⟨2030, 12, 31⟩, 0⟩ none = .ok ⟨5, 2, 0⟩ := by decide
example : DiffYMD ⟨⟨2020, 2, 15⟩, 0⟩ ⟨⟨2024, 3, 31⟩, 0⟩ none = .ok ⟨4, 1, 16⟩ := by decide
example : DiffYMD ⟨⟨2024, 1, 15⟩, 0⟩ ⟨⟨2024, 1, 10⟩, 0⟩ none = .error .startAfterEnd := by decide
example : DiffYMD ⟨⟨10000, 1, 1⟩, 0⟩ ⟨⟨10001, 1, 1⟩, 0⟩ none = .error .yearOutOfRange := by decide
example : DiffYMDOpts ⟨⟨100, 1, 1⟩, 0⟩ ⟨⟨3000, 1, 1⟩, 0⟩ ⟨none, 0, 100, 0⟩ = .error .spanTooLarge := by decide

/-! ### Bridge lemmas between Go's truncating division and Euclidean division -/

/-- Truncating remainder is zero exactly when the Euclidean remainder is. -/
theorem tmod_emod_zero (a n : Int) : Int.tmod a n = 0 ↔ a % n = 0 := by
  constructor
  · intro h
    refine Int.emod_eq_zero_of_dvd ⟨Int.tdiv a n, ?_⟩
    have h2 := Int.tdiv_add_tmod a n
    rw [h, add_zero] at h2
    exact h2.symm
  · intro h
    exact Int.tmod_eq_zero_of_dvd (Int.dvd_of_emod_eq_zero h)

/-- The Go leap-year predicate in Euclidean-remainder terms. -/
theorem isLeap_iff (y : Int) :
    isLeap y = true ↔ (y % 4 = 0 ∧ (¬ y % 100 = 0 ∨ y % 400 = 0)) := by
  unfold isLeap
  simp [Bool.and_eq_true, Bool.or_eq_true, beq_iff_eq, bne_iff_ne, tmod_emod_zero]

/-- Case description of `leapBit` that `omega` can consume. -/
theorem leapBit_cases (y : Int) :
    (leapBit y = 1 ∧ (y % 4 = 0 ∧ (¬ y % 100 = 0 ∨ y % 400 = 0))) ∨
    (leapBit y = 0 ∧ ¬(y % 4 = 0 ∧ (¬ y % 100 = 0 ∨ y % 400 = 0))) := by
  by_cases h : isLeap y = true
  · exact .inl ⟨by simp [leapBit, h], (isLeap_iff y).mp h⟩
  · exact .inr ⟨by simp [leapBit, h], fun hc => h ((isLeap_iff y).mpr hc)⟩

/-- `floorDiv` at the only modulus the library uses coincides with
Euclidean (floor) division. -/
theorem floorDiv_eq400 (a : Int) : floorDiv a 400 = a / 400 := by
  have ht : 400 * Int.tdiv a 400 + Int.tmod a 400 = a := Int.tdiv_add_tmod a 400
  have hub : Int.tmod a 400 < 400 := Int.tmod_lt_of_pos a (by norm_num)
  have hlb : -400 < Int.tmod a 400 := by
    rcases le_or_lt 0 a with ha | ha
    · have := Int.tmod_nonneg 400 ha
      omega
    · have h2 : Int.tmod a 400 = -Int.tmod (-a) 400 := by
        rw [Int.tmod_def, Int.tmod_def, Int.neg_tdiv]
        ring
      have h3 : Int.tmod (-a) 400 < 400 := Int.tmod_lt_of_pos (-a) (by norm_num)
      omega
  unfold floorDiv
  simp only [ne_eq, eq_iff_iff]
  split <;> omega

/-- Closed Euclidean form of `civilDays` for months March through
December. -/
theorem civilDays_ge3 (y m d : Int) (h3 : 3 ≤ m) :
    civilDays y m d = 146097 * (y / 400) + 365 * (y % 400) + (y % 400) / 4
      - (y % 400) / 100 + (153 * (m - 3) + 2) / 5 + d - 1 := by
  have hmle : ¬ m ≤ 2 := by omega
  simp only [civilDays, if_neg hmle]
  rw [floorDiv_eq400]
  have hyoe : y - y / 400 * 400 = y % 400 := by
    rw [Int.emod_def]
    ring
  rw [hyoe]
  have hm0 : (0 : Int) ≤ 153 * (m - 3) + 2 := by omega
  rw [Int.tdiv_eq_ediv hm0 (by norm_num),
    Int.tdiv_eq_ediv (Int.emod_nonneg y (by norm_num)) (by norm_num : (0:Int) ≤ 4),
    Int.tdiv_eq_ediv (Int.emod_nonneg y (by norm_num)) (by norm_num : (0:Int) ≤ 100)]
  ring

/-- Closed Euclidean form of `civilDays` for January and February. -/
theorem civilDays_le2 (y m d : Int) (h1 : 1 ≤ m) (h2 : m ≤ 2) :
    civilDays y m d = 146097 * ((y - 1) / 400) + 365 * ((y - 1) % 400)
      + ((y - 1) % 400) / 4 - ((y - 1) % 400) / 100 + (153 * (m + 9) + 2) / 5 + d - 1 := by
  simp only [civilDays, if_pos h2]
  rw [floorDiv_eq400]
  have hyoe : y - 1 - (y - 1) / 400 * 400 = (y - 1) % 400 := by
    rw [Int.emod_def]
    ring
  rw [hyoe]
  have hm0 : (0 : Int) ≤ 153 * (m + 12 - 3) + 2 := by omega
  rw [Int.tdiv_eq_ediv hm0 (by norm_num),
    Int.tdiv_eq_ediv (Int.emod_nonneg (y - 1) (by norm_num)) (by norm_num : (0:Int) ≤ 4),
    Int.tdiv_eq_ediv (Int.emod_nonneg (y - 1) (by norm_num)) (by norm_num : (0:Int) ≤ 100)]
  have : m + 12 - 3 = m + 9 := by ring
  rw [this]
  ring

/-- Closed form of `jan1`: the classical leap-day counting formula. -/
theorem jan1_closed (y : Int) :
    jan1 y = 365 * (y - 1) + (y - 1) / 4 - (y - 1) / 100 + (y - 1) / 400 + 306 := by
  rw [jan1, civilDays_le2 y 1 1 (by norm_num) (by norm_num)]
  omega

/-- A year has 365 days plus its leap day. -/
theorem jan1_succ (y : Int) : jan1 (y + 1) = jan1 y + 365 + leapBit y := by
  rw [jan1_closed, jan1_closed]
  have := leapBit_cases y
  omega

/-- `jan1` is monotone. -/
theorem jan1_mono {a b : Int} (h : a ≤ b) : jan1 a ≤ jan1 b := by
  rw [jan1_closed, jan1_closed]
  omega

/-- `civilDays` is linear in the day argument. -/
theorem civilDays_day (y m d : Int) : civilDays y m d = civilDays y m 1 + (d - 1) := by
  unfold civilDays
  split <;> ring

/-- February has `28 + leapBit` days. -/
theorem daysInMonth_feb (y : Int) : daysInMonth y 2 = 28 + leapBit y := by
  by_cases h : isLeap y = true <;> simp [daysInMonth, leapBit, h]

/-- `civilDays` in terms of `jan1` and the month table, for real months. -/
theorem civilDays_decomp (y m d : Int) (h1 : 1 ≤ m) (h2 : m ≤ 12) :
    civilDays y m d = jan1 y + Ftab y m + d - 1 := by
  have hLB := leapBit_cases y
  interval_cases m
  · rw [civilDays_le2 y 1 d (by norm_num) (by norm_num), jan1_closed]
    norm_num [Ftab, daysBefore]
    omega
  · rw [civilDays_le2 y 2 d (by norm_num) (by norm_num), jan1_closed]
    norm_num [Ftab, daysBefore]
    omega
  · rw [civilDays_ge3 y 3 d (by norm_num), jan1_closed]
    norm_num [Ftab, daysBefore]
    omega
  · rw [civilDays_ge3 y 4 d (by norm_num), jan1_closed]
    norm_num [Ftab, daysBefore]
    omega
  · rw [civilDays_ge3 y 5 d (by norm_num), jan1_closed]
    norm_num [Ftab, daysBefore]
    omega
  · rw [civilDays_ge3 y 6 d (by norm_num), jan1_closed]
    norm_num [Ftab, daysBefore]
    omega
  · rw [civilDays_ge3 y 7 d (by norm_num), jan1_closed]
    norm_num [Ftab, daysBefore]
    omega
  · rw [civilDays_ge3 y 8 d (by norm_num), jan1_closed]
    norm_num [Ftab, daysBefore]
    omega
  · rw [civilDays_ge3 y 9 d (by norm_num), jan1_closed]
    norm_num [Ftab, daysBefore]
    omega
  · rw [civilDays_ge3 y 10 d (by norm_num), jan1_closed]
    norm_num [Ftab, daysBefore]
    omega
  · rw [civilDays_ge3 y 11 d (by norm_num), jan1_closed]
    norm_num [Ftab, daysBefore]
    omega
  · rw [civilDays_ge3 y 12 d (by norm_num), jan1_closed]
    norm_num [Ftab, daysBefore]
    omega

/-- Stepping the cumulative table by one month adds that month's length. -/
theorem Ftab_step (y m : Int) (h1 : 1 ≤ m) (h2 : m ≤ 12) :
    Ftab y (m + 1) = Ftab y m + daysInMonth y m := by
  by_cases hL : isLeap y = true <;>
    interval_cases m <;>
    simp [Ftab, daysBefore, daysInMonth, leapBit, hL]

/-- Every real month has between 28 and 31 days. -/
theorem daysInMonth_bounds (y m : Int) (h1 : 1 ≤ m) (h2 : m ≤ 12) :
    28 ≤ daysInMonth y m ∧ daysInMonth y m ≤ 31 := by
  by_cases hL : isLeap y = true <;>
    interval_cases m <;>
    simp [daysInMonth, daysBefore, leapBit, hL]

/-- Table bounds: the days before a month and after it fit in the year. -/
theorem Ftab_bounds (y m : Int) (h1 : 1 ≤ m) (h2 : m ≤ 12) :
    0 ≤ Ftab y m ∧ Ftab y m + daysInMonth y m ≤ 365 + leapBit y := by
  by_cases hL : isLeap y = true <;>
    interval_cases m <;>
    simp [Ftab, daysInMonth, daysBefore, leapBit, hL]

/-- Local correctness of the 100/4/1-year steps of the `absDate` cascade
within one 400-year era. -/
theorem cascade_local (r c n100 r100 e r4 q n1 yd w : Int)
    (h0 : 0 ≤ r) (h1 : r < 146097)
    (hc : c = r / 36524) (hn : n100 = c - c / 4)
    (hr : r100 = r - 36524 * n100) (he : e = r100 / 1461)
    (hr4 : r4 = r100 - 1461 * e) (hq : q = r4 / 365)
    (hn1 : n1 = q - q / 4) (hyd : yd = r4 - 365 * n1)
    (hw : w = 100 * n100 + 4 * e + n1) :
    365 * w + w / 4 - w / 100 + yd = r ∧ 0 ≤ yd ∧ 0 ≤ w ∧ w ≤ 399 ∧
    (yd < 365 ∨ (yd = 365 ∧ (w + 1) % 4 = 0 ∧ ((w + 1) % 100 ≠ 0 ∨ (w + 1) % 400 = 0))) := by
  have hc4 : 0 ≤ c ∧ c ≤ 4 := by omega
  have hn3 : 0 ≤ n100 ∧ n100 ≤ 3 := by omega
  have hr100b : 0 ≤ r100 ∧ r100 ≤ 36524 := by omega
  have heb : 0 ≤ e ∧ e ≤ 24 := by omega
  have hr4b : 0 ≤ r4 ∧ r4 ≤ 1460 := by omega
  have hqb : 0 ≤ q ∧ q ≤ 4 := by omega
  have hn1b : 0 ≤ n1 ∧ n1 ≤ 3 := by omega
  have hydb : 0 ≤ yd ∧ yd ≤ 365 := by omega
  have hw4 : w / 4 = 25 * n100 + e := by omega
  have hw100 : w / 100 = n100 := by omega
  omega

/-- Assembling the 400-year era with the in-era year data gives the
`jan1` characterization. -/
theorem cascade_assembly (z n400 r w yd y : Int)
    (hn : n400 = (z - 306) / 146097)
    (hr : r = z - 306 - 146097 * n400)
    (hcon : 365 * w + w / 4 - w / 100 + yd = r)
    (hw0 : 0 ≤ w) (hw399 : w ≤ 399) (hyd0 : 0 ≤ yd)
    (hleap : yd < 365 ∨ (yd = 365 ∧ (w + 1) % 4 = 0 ∧ ((w + 1) % 100 ≠ 0 ∨ (w + 1) % 400 = 0)))
    (hy : y = 400 * n400 + w + 1) :
    jan1 y + yd = z ∧ 0 ≤ yd ∧ yd < 365 + leapBit y := by
  have hLB := leapBit_cases y
  have h1 : (y - 1) / 4 = 100 * n400 + w / 4 := by omega
  have h2 : (y - 1) / 100 = 4 * n400 + w / 100 := by omega
  have h3 : (y - 1) / 400 = n400 := by omega
  have h4 : y % 4 = (w + 1) % 4 := by omega
  have h5 : y % 100 = (w + 1) % 100 := by omega
  have h6 : y % 400 = (w + 1) % 400 := by omega
  rw [jan1_closed]
  omega

/-- Correctness of the `absDate` year cascade: it returns the year whose
January 1 is at or before `z`, together with the in-year day offset. -/
theorem absYearYday_spec (z y yd : Int) (h : absYearYday z = (y, yd)) :
    jan1 y + yd = z ∧ 0 ≤ yd ∧ yd < 365 + leapBit y := by
  simp only [absYearYday, Prod.mk.injEq] at h
  obtain ⟨hy, hyd⟩ := h
  obtain ⟨hcon, hyd0, hw0, hw399, hleap⟩ :=
    cascade_local (z - 306 - 146097 * ((z - 306) / 146097))
      _ _ _ _ _ _ _ _ _ (by omega) (by omega) rfl rfl rfl rfl rfl rfl rfl rfl rfl
  rw [hyd] at hcon hyd0 hleap
  exact cascade_assembly z _ _ _ yd y rfl rfl hcon hw0 hw399 hyd0 hleap (by omega)

/-- Value table of `daysBefore`, in a form `omega` can consume. -/
theorem daysBefore_enum (m : Int) (h0 : 0 ≤ m) (h1 : m ≤ 12) :
    (m = 0 ∧ daysBefore m = 0) ∨ (m = 1 ∧ daysBefore m = 31) ∨ (m = 2 ∧ daysBefore m = 59) ∨
    (m = 3 ∧ daysBefore m = 90) ∨ (m = 4 ∧ daysBefore m = 120) ∨ (m = 5 ∧ daysBefore m = 151) ∨
    (m = 6 ∧ daysBefore m = 181) ∨ (m = 7 ∧ daysBefore m = 212) ∨ (m = 8 ∧ daysBefore m = 243) ∨
    (m = 9 ∧ daysBefore m = 273) ∨ (m = 10 ∧ daysBefore m = 304) ∨ (m = 11 ∧ daysBefore m = 334) ∨
    (m = 12 ∧ daysBefore m = 365) := by
  interval_cases m <;> norm_num [daysBefore]

/-- Correctness of the 31-day month estimate plus table correction of
`absDate`. -/
theorem monthTable_core (day mo d : Int) (h0 : 0 ≤ day) (h1 : day ≤ 364)
    (h : (if daysBefore (day / 31 + 1) ≤ day then
            ((day / 31 + 2 : Int), day - daysBefore (day / 31 + 1) + 1)
          else (day / 31 + 1, day - daysBefore (day / 31) + 1)) = ((mo : Int), (d : Int))) :
    1 ≤ mo ∧ mo ≤ 12 ∧ 1 ≤ d ∧ daysBefore (mo - 1) + d - 1 = day ∧ day < daysBefore mo := by
  have e1 := daysBefore_enum (day / 31) (by omega) (by omega)
  have e2 := daysBefore_enum (day / 31 + 1) (by omega) (by omega)
  split at h <;> injection h with hmo hd
  · have e3 := daysBefore_enum (mo - 1) (by omega) (by omega)
    have e4 := daysBefore_enum mo (by omega) (by omega)
    omega
  · have e3 := daysBefore_enum (mo - 1) (by omega) (by omega)
    have e4 := daysBefore_enum mo (by omega) (by omega)
    omega

/-- Outside February the month length is a table difference. -/
theorem daysInMonth_ne2 (y m : Int) (h : m ≠ 2) :
    daysInMonth y m = daysBefore m - daysBefore (m - 1) := by
  simp [daysInMonth, h]

/-- Correctness of the month/day extraction of `absDate`. -/
theorem monthDayFromYday_spec (y yd mo d : Int) (h0 : 0 ≤ yd) (h1 : yd < 365 + leapBit y)
    (h : monthDayFromYday y yd = (mo, d)) :
    1 ≤ mo ∧ mo ≤ 12 ∧ 1 ≤ d ∧ d ≤ daysInMonth y mo ∧ Ftab y mo + (d - 1) = yd := by
  by_cases hL : isLeap y = true
  · have hlb : leapBit y = 1 := by simp [leapBit, hL]
    by_cases h59 : yd = 59
    · subst h59
      simp [monthDayFromYday, hL] at h
      obtain ⟨hmo, hd⟩ := h
      subst hmo
      subst hd
      refine ⟨by norm_num, by norm_num, by norm_num, ?_, ?_⟩
      · simp [daysInMonth, hL]
      · norm_num [Ftab, daysBefore]
    · by_cases hgt : 59 < yd
      · rw [show monthDayFromYday y yd =
            (if daysBefore ((yd - 1) / 31 + 1) ≤ yd - 1 then
              ((yd - 1) / 31 + 2, yd - 1 - daysBefore ((yd - 1) / 31 + 1) + 1)
            else ((yd - 1) / 31 + 1, yd - 1 - daysBefore ((yd - 1) / 31) + 1))
            from by simp [monthDayFromYday, hL, h59, hgt]] at h
        have hcore := monthTable_core (yd - 1) mo d (by omega) (by omega) h
        have e4 := daysBefore_enum mo (by omega) (by omega)
        have hmo3 : 3 ≤ mo := by omega
        rw [daysInMonth_ne2 y mo (by omega)]
        have hft : Ftab y mo = daysBefore (mo - 1) + leapBit y := by
          rw [Ftab, if_pos hmo3]
        omega
      · rw [show monthDayFromYday y yd =
            (if daysBefore (yd / 31 + 1) ≤ yd then
              (yd / 31 + 2, yd - daysBefore (yd / 31 + 1) + 1)
            else (yd / 31 + 1, yd - daysBefore (yd / 31) + 1))
            from by simp [monthDayFromYday, hL, h59, hgt]] at h
        have hcore := monthTable_core yd mo d (by omega) (by omega) h
        have e3 := daysBefore_enum (mo - 1) (by omega) (by omega)
        have hmole : mo ≤ 2 := by omega
        have hft : Ftab y mo = daysBefore (mo - 1) := by
          rw [Ftab, if_neg (by omega)]
          omega
        by_cases hmo2 : mo = 2
        · subst hmo2
          simp only [daysInMonth, if_pos rfl, hL, if_true]
          omega
        · rw [daysInMonth_ne2 y mo hmo2]
          omega
  · have hlb : leapBit y = 0 := by simp [leapBit, hL]
    rw [show monthDayFromYday y yd =
        (if daysBefore (yd / 31 + 1) ≤ yd then
          (yd / 31 + 2, yd - daysBefore (yd / 31 + 1) + 1)
        else (yd / 31 + 1, yd - daysBefore (yd / 31) + 1))
        from by simp [monthDayFromYday, hL]] at h
    have hcore := monthTable_core yd mo d (by omega) (by omega) h
    have hft : Ftab y mo = daysBefore (mo - 1) := by
      simp [Ftab, leapBit, hL]
    by_cases hmo2 : mo = 2
    · have hdim : daysInMonth y 2 = 28 := by simp [daysInMonth, hL]
      have e3 := daysBefore_enum (mo - 1) (by omega) (by omega)
      have e4 := daysBefore_enum mo (by omega) (by omega)
      subst hmo2
      omega
    · rw [daysInMonth_ne2 y mo hmo2]
      omega

/-- The extraction `civilFromDays` is a right inverse of the serial count
`civilDays` and always produces a normalized triple. -/
theorem civilFromDays_spec (z : Int) :
    dateSerial (civilFromDays z) = z ∧ ValidDate (civilFromDays z) := by
  rcases hyy : absYearYday z with ⟨y, yd⟩
  rcases hmd : monthDayFromYday y yd with ⟨mo, d⟩
  have hA := absYearYday_spec z y yd hyy
  have hB := monthDayFromYday_spec y yd mo d hA.2.1 hA.2.2 hmd
  have hcf : civilFromDays z = ⟨y, mo, d⟩ := by
    simp [civilFromDays, hyy, hmd]
  rw [hcf]
  constructor
  · show civilDays y mo d = z
    rw [civilDays_decomp y mo d hB.1 hB.2.1]
    have hA1 := hA.1
    have hB5 := hB.2.2.2.2
    omega
  · exact ⟨hB.1, hB.2.1, hB.2.2.1, hB.2.2.2.1⟩

/-- `Ftab` is monotone on real months (up to the virtual month 13). -/
theorem Ftab_mono (y : Int) {a b : Int} (h1 : 1 ≤ a) (hab : a ≤ b) (h13 : b ≤ 13) :
    Ftab y a ≤ Ftab y b := by
  refine Int.le_induction (P := fun n => n ≤ 13 → Ftab y a ≤ Ftab y n)
    (fun _ => le_refl _) ?_ b hab h13
  intro n han hP hn13
  have hs := Ftab_step y n (by omega) (by omega)
  have hd := daysInMonth_bounds y n (by omega) (by omega)
  have := hP (by omega)
  omega

/-- The in-year encoding `(month, day) ↦ Ftab + day` is injective on
valid month/day pairs. -/
theorem Ftab_encode_inj (y a b c e : Int)
    (hva : 1 ≤ a ∧ a ≤ 12 ∧ 1 ≤ b ∧ b ≤ daysInMonth y a)
    (hvc : 1 ≤ c ∧ c ≤ 12 ∧ 1 ≤ e ∧ e ≤ daysInMonth y c)
    (heq : Ftab y a + b = Ftab y c + e) : a = c ∧ b = e := by
  rcases lt_trichotomy a c with hlt | he | hgt
  · exfalso
    have hs := Ftab_step y a (by omega) (by omega)
    have hm := Ftab_mono y (show (1:Int) ≤ a + 1 by omega)
      (show a + 1 ≤ c by omega) (by omega)
    omega
  · subst he
    omega
  · exfalso
    have hs := Ftab_step y c (by omega) (by omega)
    have hm := Ftab_mono y (show (1:Int) ≤ c + 1 by omega)
      (show c + 1 ≤ a by omega) (by omega)
    omega

/-- The extraction is a left inverse of `civilDays` on valid triples. -/
theorem civilFromDays_civilDays (t : Date) (h : ValidDate t) :
    civilFromDays (dateSerial t) = t := by
  obtain ⟨hm1, hm2, hd1, hd2⟩ := h
  set z := dateSerial t with hz
  have hzz : z = civilDays t.year t.month t.day := hz
  rcases hyy : absYearYday z with ⟨Y, YD⟩
  rcases hmd : monthDayFromYday Y YD with ⟨Mo, D⟩
  have hA := absYearYday_spec z Y YD hyy
  have hB := monthDayFromYday_spec Y YD Mo D hA.2.1 hA.2.2 hmd
  have hser := civilDays_decomp t.year t.month t.day hm1 hm2
  have hFb := Ftab_bounds t.year t.month hm1 hm2
  have hjt : jan1 (t.year + 1) = jan1 t.year + 365 + leapBit t.year := jan1_succ _
  have hy : Y = t.year := by
    rcases lt_trichotomy Y t.year with hlt | he | hgt
    · exfalso
      have hmono := jan1_mono (show Y + 1 ≤ t.year by omega)
      have hjY : jan1 (Y + 1) = jan1 Y + 365 + leapBit Y := jan1_succ _
      omega
    · exact he
    · exfalso
      have hmono := jan1_mono (show t.year + 1 ≤ Y by omega)
      omega
  subst hy
  have hmd2 := Ftab_encode_inj t.year Mo D t.month t.day
    ⟨hB.1, hB.2.1, hB.2.2.1, hB.2.2.2.1⟩ ⟨hm1, hm2, hd1, hd2⟩
    (by have hB5 := hB.2.2.2.2; have hA1 := hA.1; omega)
  have hcf : civilFromDays z = ⟨t.year, Mo, D⟩ := by
    simp [civilFromDays, hyy, hmd]
  rw [hcf, hmd2.1, hmd2.2]

/-- `dateFromYMD` produces the serial of the month-normalized input. -/
theorem dateSerial_dateFromYMD (y mo d : Int) :
    dateSerial (dateFromYMD y mo d)
      = civilDays (y + (mo - 1) / 12) ((mo - 1) % 12 + 1) d := by
  exact (civilFromDays_spec (civilDays (y + (mo - 1) / 12) ((mo - 1) % 12 + 1) d)).1

/-- `dateFromYMD` always produces a normalized triple. -/
theorem dateFromYMD_valid (y mo d : Int) : ValidDate (dateFromYMD y mo d) := by
  exact (civilFromDays_spec (civilDays (y + (mo - 1) / 12) ((mo - 1) % 12 + 1) d)).2

/-- On already-valid triples `time.Date` is the identity. -/
theorem dateFromYMD_of_valid (y mo d : Int) (h : ValidDate ⟨y, mo, d⟩) :
    dateFromYMD y mo d = ⟨y, mo, d⟩ := by
  have h1 : 1 ≤ mo := h.1
  have h2 : mo ≤ 12 := h.2.1
  have e1 : y + (mo - 1) / 12 = y := by omega
  have e2 : (mo - 1) % 12 + 1 = mo := by omega
  show civilFromDays (civilDays (y + (mo - 1) / 12) ((mo - 1) % 12 + 1) d) = _
  rw [e1, e2]
  exact civilFromDays_civilDays ⟨y, mo, d⟩ h

/-- `monthFirst` at a real month index. -/
theorem monthFirst_eq (y mo : Int) (h1 : 1 ≤ mo) (h2 : mo ≤ 12) :
    monthFirst (monthIndex y mo) = civilDays y mo 1 := by
  have e1 : monthIndex y mo / 12 = y := by unfold monthIndex; omega
  have e2 : monthIndex y mo % 12 + 1 = mo := by unfold monthIndex; omega
  rw [monthFirst, e1, e2]

/-- Stepping one month forward on the `monthFirst` scale. -/
theorem monthFirst_step (j : Int) :
    monthFirst (j + 1) = monthFirst j + daysInMonth (j / 12) (j % 12 + 1) := by
  by_cases h11 : j % 12 ≤ 10
  · have hY : (j + 1) / 12 = j / 12 := by omega
    have hM : (j + 1) % 12 + 1 = j % 12 + 1 + 1 := by omega
    rw [monthFirst, monthFirst, hY, hM,
      civilDays_decomp _ _ _ (by omega) (by omega),
      civilDays_decomp _ _ _ (by omega) (by omega)]
    have hs := Ftab_step (j / 12) (j % 12 + 1) (by omega) (by omega)
    omega
  · have hY : (j + 1) / 12 = j / 12 + 1 := by omega
    have hM : (j + 1) % 12 + 1 = 1 := by omega
    have h12 : j % 12 + 1 = 12 := by omega
    rw [monthFirst, monthFirst, hY, hM, h12,
      civilDays_decomp _ 12 _ (by omega) (by omega)]
    have hjs := jan1_succ (j / 12)
    have hft : Ftab (j / 12) 12 = 334 + leapBit (j / 12) := by
      norm_num [Ftab, daysBefore]
    have hdim : daysInMonth (j / 12) 12 = 31 := by
      norm_num [daysInMonth, daysBefore]
    have hj1 : civilDays (j / 12 + 1) 1 1 = jan1 (j / 12 + 1) := rfl
    omega

/-- A month on the `monthFirst` scale is 28 to 31 days long. -/
theorem monthFirst_step_bounds (j : Int) :
    monthFirst j + 28 ≤ monthFirst (j + 1) ∧ monthFirst (j + 1) ≤ monthFirst j + 31 := by
  have hs := monthFirst_step j
  have hb := daysInMonth_bounds (j / 12) (j % 12 + 1) (by omega) (by omega)
  omega

/-- `monthFirst` is strictly monotone, with slope at least 28 days a
month. -/
theorem monthFirst_mono {j k : Int} (h : j ≤ k) :
    monthFirst j + 28 * (k - j) ≤ monthFirst k := by
  refine Int.le_induction (P := fun n => monthFirst j + 28 * (n - j) ≤ monthFirst n)
    (by omega) ?_ k h
  intro n hn hP
  have := monthFirst_step_bounds n
  have h28 : 28 * (n + 1 - j) = 28 * (n - j) + 28 := by ring
  omega

/-- The serial of a valid date sits in its month on the `monthFirst`
scale. -/
theorem valid_serial (t : Date) (h : ValidDate t) :
    dateSerial t = monthFirst (monthIndex t.year t.month) + (t.day - 1) := by
  obtain ⟨h1, h2, _, _⟩ := h
  rw [show dateSerial t = civilDays t.year t.month t.day from rfl,
    civilDays_day, monthFirst_eq t.year t.month h1 h2]

/-- Bounds of a valid date's serial within its month. -/
theorem valid_serial_bounds (t : Date) (h : ValidDate t) :
    monthFirst (monthIndex t.year t.month) ≤ dateSerial t ∧
    dateSerial t < monthFirst (monthIndex t.year t.month + 1) := by
  obtain ⟨h1, h2, h3, h4⟩ := h
  have hv := valid_serial t ⟨h1, h2, h3, h4⟩
  have hs := monthFirst_step (monthIndex t.year t.month)
  have e1 : monthIndex t.year t.month / 12 = t.year := by unfold monthIndex; omega
  have e2 : monthIndex t.year t.month % 12 + 1 = t.month := by unfold monthIndex; omega
  rw [e1, e2] at hs
  omega

/-- Serial of the default policy's anchor: the day-of-month is carried
unchanged onto the shifted month scale (Go's normalizing `AddDate`). -/
theorem defaultAddMonths_serial (t : GoTime) (k : Int) :
    dateSerial ((defaultAddMonths t k).date)
      = monthFirst (monthIndex t.date.year t.date.month + k) + (t.date.day - 1) := by
  show dateSerial (dateFromYMD (t.date.year + 0) (t.date.month + k) (t.date.day + 0)) = _
  rw [dateSerial_dateFromYMD, civilDays_day]
  have e1 : t.date.year + 0 + (t.date.month + k - 1) / 12
      = (monthIndex t.date.year t.date.month + k) / 12 := by
    unfold monthIndex
    omega
  have e2 : (t.date.month + k - 1) % 12 + 1
      = (monthIndex t.date.year t.date.month + k) % 12 + 1 := by
    unfold monthIndex
    omega
  rw [e1, e2, monthFirst]
  omega

/-- Comparing two midnight times is comparing their serials. -/
theorem after_serial (a b : GoTime) (ha : a.clock = 0) (hb : b.clock = 0) :
    after a b = true ↔ dateSerial b.date < dateSerial a.date := by
  simp only [after, instant, ha, hb, decide_eq_true_eq, nsPerDay]
  omega

/-- Branch analysis of the single-step correction (civil.go lines
164-176): the returned anchor is the policy applied to the returned
month count, which arises by one of the four correction paths. -/
theorem correctedMA_spec (f : AddMonthsFn) (s e : GoTime) :
    correctedMA f s e = ((correctedMA f s e).1, f s (correctedMA f s e).1) ∧
    ((after (f s ((e.date.year - s.date.year) * 12 + (e.date.month - s.date.month))) e = true ∧
      after (f s ((e.date.year - s.date.year) * 12 + (e.date.month - s.date.month) - 1 + 1)) e = true ∧
      (correctedMA f s e).1 = (e.date.year - s.date.year) * 12 + (e.date.month - s.date.month) - 1) ∨
     (after (f s ((e.date.year - s.date.year) * 12 + (e.date.month - s.date.month))) e = true ∧
      after (f s ((e.date.year - s.date.year) * 12 + (e.date.month - s.date.month) - 1 + 1)) e = false ∧
      (correctedMA f s e).1 = (e.date.year - s.date.year) * 12 + (e.date.month - s.date.month) - 1 + 1) ∨
     (after (f s ((e.date.year - s.date.year) * 12 + (e.date.month - s.date.month))) e = false ∧
      after (f s ((e.date.year - s.date.year) * 12 + (e.date.month - s.date.month) + 1)) e = true ∧
      (correctedMA f s e).1 = (e.date.year - s.date.year) * 12 + (e.date.month - s.date.month)) ∨
     (after (f s ((e.date.year - s.date.year) * 12 + (e.date.month - s.date.month))) e = false ∧
      after (f s ((e.date.year - s.date.year) * 12 + (e.date.month - s.date.month) + 1)) e = false ∧
      (correctedMA f s e).1 = (e.date.year - s.date.year) * 12 + (e.date.month - s.date.month) + 1)) := by
  unfold correctedMA
  cases hb1 : after (f s ((e.date.year - s.date.year) * 12 + (e.date.month - s.date.month))) e <;>
    simp only [hb1, Bool.false_eq_true, if_false, if_true, ite_true, ite_false]
  · cases hb2 : after (f s ((e.date.year - s.date.year) * 12 + (e.date.month - s.date.month) + 1)) e <;>
      simp only [hb2, Bool.false_eq_true, if_false, if_true, ite_true, ite_false]
    · exact ⟨trivial, by tauto⟩
    · exact ⟨trivial, by tauto⟩
  · cases hb2 : after (f s ((e.date.year - s.date.year) * 12 + (e.date.month - s.date.month) - 1 + 1)) e <;>
      simp only [hb2, Bool.false_eq_true, if_false, if_true, ite_true, ite_false]
    · exact ⟨trivial, by tauto⟩
    · exact ⟨trivial, by tauto⟩

/-- Evaluation of `diffCore` (civil.go lines 178-194) relative to the
corrected month count: either the leftover is non-negative and is used
as is, or the defensive branch recomputes from one month earlier. -/
theorem diffCore_eval (f : AddMonthsFn) (s e : GoTime) :
    (0 ≤ dateSerial e.date - dateSerial ((f s (correctedMA f s e).1).date) ∧
     diffCore f s e = ⟨Int.tdiv (correctedMA f s e).1 12, Int.tmod (correctedMA f s e).1 12,
       dateSerial e.date - dateSerial ((f s (correctedMA f s e).1).date)⟩) ∨
    (dateSerial e.date - dateSerial ((f s (correctedMA f s e).1).date) < 0 ∧
     diffCore f s e = ⟨Int.tdiv ((correctedMA f s e).1 - 1) 12, Int.tmod ((correctedMA f s e).1 - 1) 12,
       dateSerial e.date - dateSerial ((f s ((correctedMA f s e).1 - 1)).date)⟩) := by
  have hform := (correctedMA_spec f s e).1
  unfold diffCore
  rw [hform]
  dsimp only
  by_cases hdd : civilDays e.date.year e.date.month e.date.day
      - civilDays (f s (correctedMA f s e).1).date.year (f s (correctedMA f s e).1).date.month
        (f s (correctedMA f s e).1).date.day < 0
  · right
    refine ⟨hdd, ?_⟩
    simp only [if_pos hdd]
    rfl
  · left
    refine ⟨Int.not_lt.mp hdd, ?_⟩
    simp only [if_neg hdd]
    rfl

/-- Congruence helper for `monthFirst` indices. -/
theorem monthFirst_congr {a b : Int} (h : a = b) : monthFirst a = monthFirst b := by
  rw [h]

/-- Master analysis of `diffCore` under the default policy: on ordered
midnight inputs it returns a non-negative month count `m` that is
maximal (the anchor of `m` is at or before `end`, the anchor of `m + 1`
is after it), and the leftover days against the anchor of `m`. -/
theorem diffCore_default (s e : GoTime)
    (hs : ValidDate s.date) (hsc : s.clock = 0)
    (he : ValidDate e.date) (hec : e.clock = 0)
    (horder : dateSerial s.date ≤ dateSerial e.date) :
    ∃ m : Int,
      diffCore defaultAddMonths s e
        = ⟨Int.tdiv m 12, Int.tmod m 12,
            dateSerial e.date - dateSerial ((defaultAddMonths s m).date)⟩ ∧
      0 ≤ m ∧
      dateSerial ((defaultAddMonths s m).date) ≤ dateSerial e.date ∧
      dateSerial e.date < dateSerial ((defaultAddMonths s (m + 1)).date) := by
  obtain ⟨hform, hbr⟩ := correctedMA_spec defaultAddMonths s e
  have hcd := diffCore_eval defaultAddMonths s e
  have hA : ∀ k : Int, dateSerial ((defaultAddMonths s k).date)
      = monthFirst (monthIndex s.date.year s.date.month + k) + (s.date.day - 1) :=
    fun k => defaultAddMonths_serial s k
  have haft : ∀ k : Int, after (defaultAddMonths s k) e = true
      ↔ dateSerial e.date < dateSerial ((defaultAddMonths s k).date) :=
    fun k => after_serial _ _ hsc hec
  have hsb := valid_serial s.date hs
  have heb := valid_serial_bounds e.date he
  have hdimb := daysInMonth_bounds s.date.year s.date.month hs.1 hs.2.1
  have hsd1 : 1 ≤ s.date.day := hs.2.2.1
  have hsd31 : s.date.day ≤ 31 := le_trans hs.2.2.2 hdimb.2
  have hjs : monthIndex s.date.year s.date.month = 12 * s.date.year + s.date.month - 1 := rfl
  have hje : monthIndex e.date.year e.date.month = 12 * e.date.year + e.date.month - 1 := rfl
  have hm0nonneg : 0 ≤ (e.date.year - s.date.year) * 12 + (e.date.month - s.date.month) := by
    by_contra hneg
    have hmono := monthFirst_mono (show monthIndex e.date.year e.date.month + 1
        ≤ monthIndex s.date.year s.date.month from by unfold monthIndex; omega)
    omega
  have hE0 : monthFirst (monthIndex e.date.year e.date.month)
      = monthFirst (monthIndex s.date.year s.date.month
          + ((e.date.year - s.date.year) * 12 + (e.date.month - s.date.month))) :=
    monthFirst_congr (by unfold monthIndex; ring)
  have hE1 : monthFirst (monthIndex e.date.year e.date.month + 1)
      = monthFirst (monthIndex s.date.year s.date.month
          + ((e.date.year - s.date.year) * 12 + (e.date.month - s.date.month) + 1)) :=
    monthFirst_congr (by unfold monthIndex; ring)
  rcases hbr with ⟨hb1, hb2, hm⟩ | ⟨hb1, hb2, hm⟩ | ⟨hb1, hb2, hm⟩ | ⟨hb1, hb2, hm⟩
  · -- decrement, then the re-check condition also holds (no increment)
    rw [hm] at hcd
    have hlt0 := (haft _).mp hb1
    have hlt0b := (haft _).mp hb2
    have ha0 := hA ((e.date.year - s.date.year) * 12 + (e.date.month - s.date.month))
    have ham1 := hA ((e.date.year - s.date.year) * 12 + (e.date.month - s.date.month) - 1)
    have ham11 := hA ((e.date.year - s.date.year) * 12 + (e.date.month - s.date.month) - 1 + 1)
    rcases (show (e.date.year - s.date.year) * 12 + (e.date.month - s.date.month) = 0
        ∨ 1 ≤ (e.date.year - s.date.year) * 12 + (e.date.month - s.date.month) from by omega)
      with h0 | hge1
    · exfalso
      have hc0 : monthFirst (monthIndex s.date.year s.date.month
            + ((e.date.year - s.date.year) * 12 + (e.date.month - s.date.month)))
          = monthFirst (monthIndex s.date.year s.date.month) := monthFirst_congr (by omega)
      omega
    rcases hcd with ⟨hdd, hval⟩ | ⟨hdd, hval⟩
    · refine ⟨(e.date.year - s.date.year) * 12 + (e.date.month - s.date.month) - 1,
        hval, by omega, by omega, ?_⟩
      omega
    · -- defensive recomputation fired
      have ham2 := hA ((e.date.year - s.date.year) * 12 + (e.date.month - s.date.month) - 1 - 1)
      have ham21 := hA ((e.date.year - s.date.year) * 12 + (e.date.month - s.date.month) - 1 - 1 + 1)
      have hs1 := monthFirst_step_bounds (monthIndex s.date.year s.date.month
          + ((e.date.year - s.date.year) * 12 + (e.date.month - s.date.month) - 1 - 1))
      have hs2 := monthFirst_step_bounds (monthIndex s.date.year s.date.month
          + ((e.date.year - s.date.year) * 12 + (e.date.month - s.date.month) - 1))
      have hc1 : monthFirst (monthIndex s.date.year s.date.month
            + ((e.date.year - s.date.year) * 12 + (e.date.month - s.date.month) - 1 - 1) + 1)
          = monthFirst (monthIndex s.date.year s.date.month
            + ((e.date.year - s.date.year) * 12 + (e.date.month - s.date.month) - 1)) :=
        monthFirst_congr (by ring)
      have hc2 : monthFirst (monthIndex s.date.year s.date.month
            + ((e.date.year - s.date.year) * 12 + (e.date.month - s.date.month) - 1) + 1)
          = monthFirst (monthIndex s.date.year s.date.month
            + ((e.date.year - s.date.year) * 12 + (e.date.month - s.date.month))) :=
        monthFirst_congr (by ring)
      have hc3 : monthFirst (monthIndex s.date.year s.date.month
            + ((e.date.year - s.date.year) * 12 + (e.date.month - s.date.month) - 1 - 1 + 1))
          = monthFirst (monthIndex s.date.year s.date.month
            + ((e.date.year - s.date.year) * 12 + (e.date.month - s.date.month) - 1)) :=
        monthFirst_congr (by ring)
      rcases (show (e.date.year - s.date.year) * 12 + (e.date.month - s.date.month) = 1
          ∨ 2 ≤ (e.date.year - s.date.year) * 12 + (e.date.month - s.date.month) from by omega)
        with h1 | hge2
      · exfalso
        have hcm : monthFirst (monthIndex s.date.year s.date.month
              + ((e.date.year - s.date.year) * 12 + (e.date.month - s.date.month) - 1))
            = monthFirst (monthIndex s.date.year s.date.month) := monthFirst_congr (by omega)
        omega
      refine ⟨(e.date.year - s.date.year) * 12 + (e.date.month - s.date.month) - 1 - 1,
        hval, by omega, by omega, ?_⟩
      omega
  · -- decrement followed by increment: impossible
    exfalso
    rw [show (e.date.year - s.date.year) * 12 + (e.date.month - s.date.month) - 1 + 1
        = (e.date.year - s.date.year) * 12 + (e.date.month - s.date.month) from by ring] at hb2
    rw [hb1] at hb2
    exact Bool.noConfusion hb2
  · -- no decrement, no increment
    rw [hm] at hcd
    have hnlt : ¬ (dateSerial e.date < dateSerial ((defaultAddMonths s
        ((e.date.year - s.date.year) * 12 + (e.date.month - s.date.month))).date)) := fun hlt => by
      rw [(haft _).mpr hlt] at hb1
      exact Bool.noConfusion hb1
    have hlt1 := (haft _).mp hb2
    rcases hcd with ⟨hdd, hval⟩ | ⟨hdd, hval⟩
    · exact ⟨(e.date.year - s.date.year) * 12 + (e.date.month - s.date.month),
        hval, hm0nonneg, by omega, hlt1⟩
    · exact absurd (by omega) hnlt
  · -- no decrement, increment taken: impossible for the default policy
    exfalso
    have ha1 := hA ((e.date.year - s.date.year) * 12 + (e.date.month - s.date.month) + 1)
    have hb2s : ¬ (dateSerial e.date < dateSerial ((defaultAddMonths s
        ((e.date.year - s.date.year) * 12 + (e.date.month - s.date.month) + 1)).date)) := fun hlt => by
      rw [(haft _).mpr hlt] at hb2
      exact Bool.noConfusion hb2
    exact hb2s (by omega)

/-- The default policy is well formed. -/
theorem defaultAddMonths_wf : WellFormedPolicy defaultAddMonths :=
  fun _ _ ht => ⟨dateFromYMD_valid _ _ _, ht⟩

/-- The midnight normalization yields a valid date. -/
theorem goMidnight_valid (t : GoTime) : ValidDate ((goMidnight t).date) :=
  dateFromYMD_valid _ _ _

/-- `Before-or-equal` from a failed `After` on midnight times. -/
theorem after_false_serial (a b : GoTime) (ha : a.clock = 0) (hb : b.clock = 0)
    (h : after a b = false) : dateSerial a.date ≤ dateSerial b.date := by
  by_contra hlt
  rw [(after_serial a b ha hb).mpr (by omega)] at h
  exact Bool.noConfusion h

/-- A successful `DiffYMDOpts` returns exactly the value of the core
algorithm on the midnight-normalized inputs, and in particular the
ordering guard passed. -/
theorem DiffYMDOpts_ok (start endd : GoTime) (opts : DiffOptions) (r : YMDiff)
    (h : DiffYMDOpts start endd opts = .ok r) :
    r = diffCore (opts.AddMonths.getD defaultAddMonths) (goMidnight start) (goMidnight endd) ∧
    after (goMidnight start) (goMidnight endd) = false := by
  unfold DiffYMDOpts at h
  dsimp only at h
  split at h
  · exact absurd h (fun hh => Except.noConfusion hh)
  next hc1 =>
    split at h
    · exact absurd h (fun hh => Except.noConfusion hh)
    · split at h
      · exact absurd h (fun hh => Except.noConfusion hh)
      · split at h
        · exact absurd h (fun hh => Except.noConfusion hh)
        · injection h with hv
          refine ⟨hv.symm, ?_⟩
          simp only [Bool.not_eq_true] at hc1
          exact hc1

/-- Adding days to a time with a valid date advances its serial. -/
theorem addDate_days (t : GoTime) (dd : Int) (hv : ValidDate t.date) :
    addDate t 0 0 dd = ⟨civilFromDays (dateSerial t.date + dd), t.clock⟩ := by
  obtain ⟨h1, h2, h3, h4⟩ := hv
  unfold addDate dateFromYMD
  have e1 : t.date.year + 0 + (t.date.month + 0 - 1) / 12 = t.date.year := by omega
  have e2 : (t.date.month + 0 - 1) % 12 + 1 = t.date.month := by omega
  rw [e1, e2]
  have e3 : civilDays t.date.year t.date.month (t.date.day + dd)
      = dateSerial t.date + dd := by
    rw [civilDays_day t.date.year t.date.month (t.date.day + dd),
      show dateSerial t.date = civilDays t.date.year t.date.month t.date.day from rfl,
      civilDays_day t.date.year t.date.month t.date.day]
    ring
  dsimp only
  rw [e3]

/-- C1: Round-trip.  For valid inputs accepted by the guards, applying
the returned difference to `start` with the same policy (any
well-formed policy, the default included) reconstructs `end` at UTC
midnight.  This holds for every policy because the leftover days are an
exact civil-serial difference against the anchor that `Apply` rebuilds. -/
theorem DiffYMDOpts_Apply_roundtrip (start endd : GoTime) (opts : DiffOptions) (r : YMDiff)
    (hwf : WellFormedPolicy (opts.AddMonths.getD defaultAddMonths))
    (hok : DiffYMDOpts start endd opts = .ok r) :
    r.Apply start opts.AddMonths = goMidnight endd := by
  obtain ⟨hval, _⟩ := DiffYMDOpts_ok start endd opts r hok
  have hcd := diffCore_eval (opts.AddMonths.getD defaultAddMonths) (goMidnight start) (goMidnight endd)
  have hM : ∃ M : Int, r = ⟨Int.tdiv M 12, Int.tmod M 12,
      dateSerial (goMidnight endd).date
        - dateSerial (((opts.AddMonths.getD defaultAddMonths) (goMidnight start) M).date)⟩ := by
    rcases hcd with ⟨_, hv⟩ | ⟨_, hv⟩
    · refine ⟨(correctedMA (opts.AddMonths.getD defaultAddMonths) (goMidnight start)
        (goMidnight endd)).1, ?_⟩
      rw [hval, hv]
    · refine ⟨(correctedMA (opts.AddMonths.getD defaultAddMonths) (goMidnight start)
        (goMidnight endd)).1 - 1, ?_⟩
      rw [hval, hv]
  obtain ⟨M, hr⟩ := hM
  have hm2 : r.Years * 12 + r.Months = M := by
    rw [hr]
    have := Int.tdiv_add_tmod M 12
    dsimp only
    omega
  show addDate ((opts.AddMonths.getD defaultAddMonths) (goMidnight start)
      (r.Years * 12 + r.Months)) 0 0 r.Days = goMidnight endd
  rw [hm2]
  obtain ⟨hav, hac⟩ := hwf (goMidnight start) M rfl
  rw [addDate_days _ _ hav, hac]
  have hD : r.Days = dateSerial (goMidnight endd).date
      - dateSerial (((opts.AddMonths.getD defaultAddMonths) (goMidnight start) M).date) := by
    rw [hr]
  rw [hD]
  have harg : dateSerial (((opts.AddMonths.getD defaultAddMonths) (goMidnight start) M).date)
      + (dateSerial (goMidnight endd).date
        - dateSerial (((opts.AddMonths.getD defaultAddMonths) (goMidnight start) M).date))
      = dateSerial (goMidnight endd).date := by ring
  rw [harg]
  have hfix : civilFromDays (dateSerial (goMidnight endd).date) = (goMidnight endd).date := by
    show civilFromDays (dateSerial (dateFromYMD endd.date.year endd.date.month endd.date.day)) = _
    rw [dateSerial_dateFromYMD]
    rfl
  rw [hfix]
  rfl

/-- Packaging of the master analysis for a successful `DiffYMDOpts` call
with the default policy. -/
theorem DiffYMDOpts_default_m (start endd : GoTime) (opts : DiffOptions) (r : YMDiff)
    (hnone : opts.AddMonths = none)
    (hok : DiffYMDOpts start endd opts = .ok r) :
    ∃ m : Int,
      r = ⟨Int.tdiv m 12, Int.tmod m 12,
          dateSerial (goMidnight endd).date
            - dateSerial ((defaultAddMonths (goMidnight start) m).date)⟩ ∧
      0 ≤ m ∧
      dateSerial ((defaultAddMonths (goMidnight start) m).date)
        ≤ dateSerial (goMidnight endd).date ∧
      dateSerial (goMidnight endd).date
        < dateSerial ((defaultAddMonths (goMidnight start) (m + 1)).date) := by
  obtain ⟨hval, hord⟩ := DiffYMDOpts_ok start endd opts r hok
  rw [hnone] at hval
  simp only [Option.getD_none] at hval
  have horder := after_false_serial _ _ rfl rfl hord
  obtain ⟨m, hres, h0, hl, hh⟩ := diffCore_default (goMidnight start) (goMidnight endd)
    (goMidnight_valid _) rfl (goMidnight_valid _) rfl horder
  exact ⟨m, by rw [hval, hres], h0, hl, hh⟩

/-- C2: Maximal whole-month anchoring.  For a successful call with the
default policy, the month total `m = 12 * Years + Months` of the result
satisfies `addMonths(start, m) ≤ end < addMonths(start, m + 1)` on the
midnight-normalized inputs. -/
theorem DiffYMDOpts_maximal_anchor (start endd : GoTime) (opts : DiffOptions) (r : YMDiff)
    (hnone : opts.AddMonths = none)
    (hok : DiffYMDOpts start endd opts = .ok r) :
    after (defaultAddMonths (goMidnight start) (12 * r.Years + r.Months)) (goMidnight endd) = false ∧
    after (defaultAddMonths (goMidnight start) (12 * r.Years + r.Months + 1)) (goMidnight endd) = true := by
  obtain ⟨m, hr, h0, hl, hh⟩ := DiffYMDOpts_default_m start endd opts r hnone hok
  have hYM : 12 * r.Years + r.Months = m := by
    rw [hr]
    dsimp only
    have := Int.tdiv_add_tmod m 12
    omega
  rw [hYM]
  refine ⟨?_, (after_serial _ _ rfl rfl).mpr hh⟩
  cases hb : after (defaultAddMonths (goMidnight start) m) (goMidnight endd)
  · rfl
  · exact absurd ((after_serial _ _ rfl rfl).mp hb) (by omega)

/-- C6 (amended): Result range invariants under the default policy: a
successful `DiffYMDOpts` with no custom policy returns `Years ≥ 0`,
`Months ∈ [0, 11]`, `Days ≥ 0`, and equal civil dates give exactly the
zero difference. -/
theorem DiffYMDOpts_default_invariants (start endd : GoTime) (opts : DiffOptions) (r : YMDiff)
    (hnone : opts.AddMonths = none)
    (hok : DiffYMDOpts start endd opts = .ok r) :
    0 ≤ r.Years ∧ 0 ≤ r.Months ∧ r.Months ≤ 11 ∧ 0 ≤ r.Days ∧
    (start.date = endd.date → r = ⟨0, 0, 0⟩) := by
  obtain ⟨m, hr, h0, hl, hh⟩ := DiffYMDOpts_default_m start endd opts r hnone hok
  have htd : Int.tdiv m 12 = m / 12 := Int.tdiv_eq_ediv h0 (by norm_num)
  have htm : Int.tmod m 12 = m % 12 := Int.tmod_eq_emod h0 (by norm_num)
  rw [hr]
  dsimp only
  rw [htd, htm]
  refine ⟨by omega, by omega, by omega, by omega, ?_⟩
  intro hse
  have hmid : goMidnight start = goMidnight endd := by
    unfold goMidnight
    rw [hse]
  have hsb := valid_serial (goMidnight start).date (goMidnight_valid start)
  have ham := defaultAddMonths_serial (goMidnight start) m
  have hsd1 : 1 ≤ (goMidnight start).date.day := (goMidnight_valid start).2.2.1
  have hze : dateSerial (goMidnight endd).date = dateSerial (goMidnight start).date := by
    rw [hmid]
  rcases (show m = 0 ∨ 1 ≤ m from by omega) with hm0 | hm1
  · subst hm0
    have hc : monthFirst (monthIndex (goMidnight start).date.year (goMidnight start).date.month + 0)
        = monthFirst (monthIndex (goMidnight start).date.year (goMidnight start).date.month) :=
      monthFirst_congr (by ring)
    simp only [YMDiff.mk.injEq]
    refine ⟨by norm_num, by norm_num, by omega⟩
  · exfalso
    have hmono := monthFirst_mono
      (show monthIndex (goMidnight start).date.year (goMidnight start).date.month + 1
        ≤ monthIndex (goMidnight start).date.year (goMidnight start).date.month + m from by omega)
    have hstep := monthFirst_step_bounds
      (monthIndex (goMidnight start).date.year (goMidnight start).date.month)
    omega

/-- C4 (amended): For the default policy the final leftover is always
non-negative — the defensive recomputation, when it runs, restores an
anchor at or before `end`. -/
theorem DiffYMDOpts_default_final_anchor (start endd : GoTime) (opts : DiffOptions) (r : YMDiff)
    (hnone : opts.AddMonths = none)
    (hok : DiffYMDOpts start endd opts = .ok r) :
    0 ≤ r.Days ∧
    after (defaultAddMonths (goMidnight start) (12 * r.Years + r.Months)) (goMidnight endd) = false := by
  obtain ⟨m, hr, h0, hl, hh⟩ := DiffYMDOpts_default_m start endd opts r hnone hok
  have hYM : 12 * r.Years + r.Months = m := by
    rw [hr]
    dsimp only
    have := Int.tdiv_add_tmod m 12
    omega
  rw [hYM]
  constructor
  · rw [hr]
    dsimp only
    omega
  · cases hb : after (defaultAddMonths (goMidnight start) m) (goMidnight endd)
    · rfl
    · exact absurd ((after_serial _ _ rfl rfl).mp hb) (by omega)

/-- The default policy never jumps backward as its month argument grows:
Go's normalizing `AddDate` is monotone in months for every start time. -/
theorem defaultAddMonths_mono (t : GoTime) (k : Int) :
    instant (defaultAddMonths t k) ≤ instant (defaultAddMonths t (k + 1)) := by
  have h1 := defaultAddMonths_serial t k
  have h2 := defaultAddMonths_serial t (k + 1)
  have h3 := monthFirst_step_bounds (monthIndex t.date.year t.date.month + k)
  have hc : monthFirst (monthIndex t.date.year t.date.month + k + 1)
      = monthFirst (monthIndex t.date.year t.date.month + (k + 1)) :=
    monthFirst_congr (by ring)
  have hcl1 : (defaultAddMonths t k).clock = t.clock := rfl
  have hcl2 : (defaultAddMonths t (k + 1)).clock = t.clock := rfl
  simp only [instant, nsPerDay]
  omega

/-- `shiftPolicy` satisfies the documented monotonicity precondition. -/
theorem shiftPolicy_monotone : MonotonePolicy shiftPolicy := by
  intro t m
  have h := defaultAddMonths_mono t (m + 100)
  show instant (defaultAddMonths t (m + 100)) ≤ instant (defaultAddMonths t (m + 1 + 100))
  rw [show m + 1 + 100 = m + 100 + 1 from by ring]
  exact h

/-- C6 (counterexample): a monotone custom policy for which a successful
`DiffYMDOpts` call on equal dates returns negative `Months` and `Days` —
the range invariants fail for caller-supplied monotone policies. -/
theorem DiffYMDOpts_invariants_counterexample :
    DiffYMDOpts ⟨⟨2020, 1, 15⟩, 0⟩ ⟨⟨2020, 1, 15⟩, 0⟩ ⟨some shiftPolicy, 0, 2000, 0⟩
      = .ok ⟨0, -2, -2982⟩ := by decide

/-- C4 (counterexample): with the default policy, start `2023-01-31` and
end `2023-03-02`, the single-step correction leaves month count 1 with
anchor `2023-03-03`, which is after `end` — so the leftover would be
negative and the defensive recomputation executes, yielding `{0, 0, 30}`. -/
theorem correction_insufficient_counterexample :
    (correctedMA defaultAddMonths (goMidnight ⟨⟨2023, 1, 31⟩, 0⟩) (goMidnight ⟨⟨2023, 3, 2⟩, 0⟩)).1 = 1 ∧
    (correctedMA defaultAddMonths (goMidnight ⟨⟨2023, 1, 31⟩, 0⟩) (goMidnight ⟨⟨2023, 3, 2⟩, 0⟩)).2
      = ⟨⟨2023, 3, 3⟩, 0⟩ ∧
    after (correctedMA defaultAddMonths (goMidnight ⟨⟨2023, 1, 31⟩, 0⟩) (goMidnight ⟨⟨2023, 3, 2⟩, 0⟩)).2
      (goMidnight ⟨⟨2023, 3, 2⟩, 0⟩) = true ∧
    DiffYMD ⟨⟨2023, 1, 31⟩, 0⟩ ⟨⟨2023, 3, 2⟩, 0⟩ none = .ok ⟨0, 0, 30⟩ := by
  exact ⟨by decide, by decide, by decide, by decide⟩

/-- C3 (counterexample): the default policy does not clamp: one month
after `2023-01-31` is `2023-03-03`, not `2023-02-28`. -/
theorem default_policy_not_clamping :
    defaultAddMonths ⟨⟨2023, 1, 31⟩, 0⟩ 1 ≠ ⟨⟨2023, 2, 28⟩, 0⟩ ∧
    defaultAddMonths ⟨⟨2023, 1, 31⟩, 0⟩ 1 = ⟨⟨2023, 3, 3⟩, 0⟩ := by
  exact ⟨by decide, by decide⟩

/-- C3 (amended): the default policy is Go's normalizing `AddDate`: an
overflowing day-of-month rolls into the following month, so January 31
plus one month is March 3, or March 2 in leap years. -/
theorem defaultAddMonths_jan31 (y : Int) :
    defaultAddMonths ⟨⟨y, 1, 31⟩, 0⟩ 1 = ⟨⟨y, 3, if isLeap y then 2 else 3⟩, 0⟩ := by
  show (⟨dateFromYMD (y + 0) (1 + 1) (31 + 0), 0⟩ : GoTime) = _
  unfold dateFromYMD
  dsimp only
  have e1 : y + 0 + (1 + 1 - 1) / 12 = y := by omega
  have e2 : ((1 : Int) + 1 - 1) % 12 + 1 = 2 := by omega
  have e3 : (31 : Int) + 0 = 31 := by norm_num
  rw [e1, e2, e3]
  by_cases hL : isLeap y = true
  · rw [if_pos hL]
    have hlb : leapBit y = 1 := by simp [leapBit, hL]
    have heq : civilDays y 2 31 = civilDays y 3 2 := by
      rw [civilDays_decomp y 2 31 (by norm_num) (by norm_num),
          civilDays_decomp y 3 2 (by norm_num) (by norm_num)]
      norm_num [Ftab, daysBefore]
      omega
    have hinv : civilFromDays (civilDays y 3 2) = (⟨y, 3, 2⟩ : Date) :=
      civilFromDays_civilDays ⟨y, 3, 2⟩
        ⟨by norm_num, by norm_num, by norm_num, by norm_num [daysInMonth, daysBefore]⟩
    rw [heq, hinv]
  · rw [if_neg hL]
    have hlb : leapBit y = 0 := by simp [leapBit, hL]
    have heq : civilDays y 2 31 = civilDays y 3 3 := by
      rw [civilDays_decomp y 2 31 (by norm_num) (by norm_num),
          civilDays_decomp y 3 3 (by norm_num) (by norm_num)]
      norm_num [Ftab, daysBefore]
      omega
    have hinv : civilFromDays (civilDays y 3 3) = (⟨y, 3, 3⟩ : Date) :=
      civilFromDays_civilDays ⟨y, 3, 3⟩
        ⟨by norm_num, by norm_num, by norm_num, by norm_num [daysInMonth, daysBefore]⟩
    rw [heq, hinv]

/-- C5: the three concrete scenarios of the specification, under the
default policy. -/
theorem DiffYMD_concrete_scenarios :
    DiffYMD ⟨⟨2024, 2, 29⟩, 0⟩ ⟨⟨2025, 2, 28⟩, 0⟩ none = .ok ⟨0, 11, 30⟩ ∧
    DiffYMD ⟨⟨2020, 6, 30⟩, 0⟩ ⟨⟨2020, 8, 31⟩, 0⟩ none = .ok ⟨0, 2, 1⟩ ∧
    DiffYMD ⟨⟨2017, 7, 14⟩, 0⟩ ⟨⟨2024, 1, 24⟩, 0⟩ none = .ok ⟨6, 6, 10⟩ := by
  exact ⟨by decide, by decide, by decide⟩

/-- C7 (counterexample): with both span fields unset, `DiffYMDOpts`
applies no span guard at all: a 3500-year span succeeds. -/
theorem DiffYMDOpts_no_default_guard :
    DiffYMDOpts ⟨⟨1000, 1, 1⟩, 0⟩ ⟨⟨4500, 1, 1⟩, 0⟩ ⟨none, 0, 0, 0⟩ = .ok ⟨3500, 0, 0⟩ := by
  decide

/-- C8: `DiffYMDOpts` never reads `MaxSpanDays`: two options values that
differ only in that field produce identical outcomes on every input. -/
theorem DiffYMDOpts_maxSpanDays_irrelevant (start endd : GoTime)
    (am : Option AddMonthsFn) (msm msy d1 d2 : Int) :
    DiffYMDOpts start endd ⟨am, msm, msy, d1⟩
      = DiffYMDOpts start endd ⟨am, msm, msy, d2⟩ := rfl

/-- C9: the ordering guard fires first — whenever the midnight-normalized
start is after the end, the result is `startAfterEnd` regardless of the
year-range or span situation; and which error (if any) is returned is
decided entirely by the midnights and the two span fields, independently
of the policy and of `MaxSpanDays`, so no error ever depends on a call to
the `addMonths` policy. -/
theorem DiffYMDOpts_error_precedence (start endd : GoTime)
    (am1 am2 : Option AddMonthsFn) (msm msy msd1 msd2 : Int) :
    (after (goMidnight start) (goMidnight endd) = true →
      DiffYMDOpts start endd ⟨am1, msm, msy, msd1⟩ = .error .startAfterEnd) ∧
    (∀ e, DiffYMDOpts start endd ⟨am1, msm, msy, msd1⟩ = .error e ↔
          DiffYMDOpts start endd ⟨am2, msm, msy, msd2⟩ = .error e) := by
  unfold DiffYMDOpts
  dsimp only
  by_cases h1 : after (goMidnight start) (goMidnight endd) = true
  · simp [h1]
  · by_cases h2 : (!inCivilRange (goMidnight start) || !inCivilRange (goMidnight endd)) = true
    · simp [h1, h2]
    · by_cases h3 : 0 < msm ∧ msm < absInt
          (((goMidnight endd).date.year - (goMidnight start).date.year) * 12 +
            ((goMidnight endd).date.month - (goMidnight start).date.month))
      · simp [h1, h2, h3]
      · by_cases h4 : msm ≤ 0 ∧ 0 < msy ∧
            msy < absInt ((goMidnight endd).date.year - (goMidnight start).date.year)
        · simp [h1, h2, h3, h4]
        · simp [h1, h2, h3, h4]

/-- C10: `Apply` is total and validates nothing — on every `YMDiff`
(canonical or not) it is exactly the policy applied to the midnight of
`start` at `Years*12 + Months`, advanced by `Days`; it ignores the
start's clock; and with the default policy the resulting date is the
anchor's civil serial advanced by exactly `Days` days. -/
theorem YMDiff_Apply_total (d : YMDiff) (dt : Date) (c1 c2 : Int)
    (am : Option AddMonthsFn) :
    YMDiff.Apply d ⟨dt, c1⟩ am
      = addDate ((am.getD defaultAddMonths) (goMidnight ⟨dt, c1⟩)
          (d.Years * 12 + d.Months)) 0 0 d.Days ∧
    YMDiff.Apply d ⟨dt, c1⟩ am = YMDiff.Apply d ⟨dt, c2⟩ am ∧
    (YMDiff.Apply d ⟨dt, c1⟩ none).date
      = civilFromDays (dateSerial ((defaultAddMonths (goMidnight ⟨dt, c1⟩)
          (d.Years * 12 + d.Months)).date) + d.Days) := by
  refine ⟨rfl, rfl, ?_⟩
  have hv : ValidDate ((defaultAddMonths (goMidnight ⟨dt, c1⟩)
      (d.Years * 12 + d.Months)).date) :=
    (defaultAddMonths_wf (goMidnight ⟨dt, c1⟩) (d.Years * 12 + d.Months) rfl).1
  have h := addDate_days (defaultAddMonths (goMidnight ⟨dt, c1⟩)
      (d.Years * 12 + d.Months)) d.Days hv
  show (addDate (defaultAddMonths (goMidnight ⟨dt, c1⟩)
      (d.Years * 12 + d.Months)) 0 0 d.Days).date = _
  rw [h]

/-- C7 (amended): the 2000-year guard lives in the `DiffYMD` wrapper, not
in `DiffYMDOpts`: `DiffYMD` passes `MaxSpanYears = 2000`, so when the
ordering and range guards pass and the midnight year difference exceeds
2000 in absolute value, it fails with `spanTooLarge`. -/
theorem DiffYMD_default_span_guard (start endd : GoTime) (am : Option AddMonthsFn)
    (h1 : after (goMidnight start) (goMidnight endd) = false)
    (h2 : inCivilRange (goMidnight start) = true)
    (h3 : inCivilRange (goMidnight endd) = true)
    (h4 : 2000 < absInt ((goMidnight endd).date.year - (goMidnight start).date.year)) :
    DiffYMD start endd am = .error .spanTooLarge := by
  unfold DiffYMD DiffYMDOpts
  dsimp only
  simp [h1, h2, h3, h4]

/-- Witness for the amended C7 guard at a concrete 2900-year span. -/
theorem DiffYMD_default_span_guard_witness :
    after (goMidnight (⟨⟨100, 1, 1⟩, 0⟩ : GoTime)) (goMidnight ⟨⟨3000, 1, 1⟩, 0⟩) = false ∧
    inCivilRange (goMidnight (⟨⟨100, 1, 1⟩, 0⟩ : GoTime)) = true ∧
    inCivilRange (goMidnight (⟨⟨3000, 1, 1⟩, 0⟩ : GoTime)) = true ∧
    2000 < absInt ((goMidnight (⟨⟨3000, 1, 1⟩, 0⟩ : GoTime)).date.year
      - (goMidnight (⟨⟨100, 1, 1⟩, 0⟩ : GoTime)).date.year) ∧
    DiffYMD ⟨⟨100, 1, 1⟩, 0⟩ ⟨⟨3000, 1, 1⟩, 0⟩ none = .error .spanTooLarge :=
  ⟨by decide, by decide, by decide, by decide,
    DiffYMD_default_span_guard ⟨⟨100, 1, 1⟩, 0⟩ ⟨⟨3000, 1, 1⟩, 0⟩ none
      (by decide) (by decide) (by decide) (by decide)⟩

/-- Witness for the round-trip theorem: `2020-06-30` to `2020-08-31`
under the default policy gives `{0, 2, 1}`, and applying it to the start
recovers the end at midnight. -/
theorem DiffYMDOpts_Apply_roundtrip_witness :
    WellFormedPolicy ((⟨none, 0, 2000, 0⟩ : DiffOptions).AddMonths.getD defaultAddMonths) ∧
    DiffYMDOpts ⟨⟨2020, 6, 30⟩, 0⟩ ⟨⟨2020, 8, 31⟩, 0⟩ ⟨none, 0, 2000, 0⟩ = .ok ⟨0, 2, 1⟩ ∧
    YMDiff.Apply ⟨0, 2, 1⟩ ⟨⟨2020, 6, 30⟩, 0⟩ ((⟨none, 0, 2000, 0⟩ : DiffOptions).AddMonths)
      = goMidnight ⟨⟨2020, 8, 31⟩, 0⟩ :=
  ⟨defaultAddMonths_wf, by decide,
    DiffYMDOpts_Apply_roundtrip ⟨⟨2020, 6, 30⟩, 0⟩ ⟨⟨2020, 8, 31⟩, 0⟩ ⟨none, 0, 2000, 0⟩
      ⟨0, 2, 1⟩ defaultAddMonths_wf (by decide)⟩

/-- Witness for the maximal-anchoring theorem: `2024-02-29` to
`2025-02-28` gives month total 11, and 11 months after the start is not
after the end while 12 months after is. -/
theorem DiffYMDOpts_maximal_anchor_witness :
    ((⟨none, 0, 2000, 0⟩ : DiffOptions).AddMonths = none) ∧
    DiffYMDOpts ⟨⟨2024, 2, 29⟩, 0⟩ ⟨⟨2025, 2, 28⟩, 0⟩ ⟨none, 0, 2000, 0⟩ = .ok ⟨0, 11, 30⟩ ∧
    after (defaultAddMonths (goMidnight ⟨⟨2024, 2, 29⟩, 0⟩)
      (12 * (⟨0, 11, 30⟩ : YMDiff).Years + (⟨0, 11, 30⟩ : YMDiff).Months))
      (goMidnight ⟨⟨2025, 2, 28⟩, 0⟩) = false ∧
    after (defaultAddMonths (goMidnight ⟨⟨2024, 2, 29⟩, 0⟩)
      (12 * (⟨0, 11, 30⟩ : YMDiff).Years + (⟨0, 11, 30⟩ : YMDiff).Months + 1))
      (goMidnight ⟨⟨2025, 2, 28⟩, 0⟩) = true :=
  ⟨rfl, by decide,
    (DiffYMDOpts_maximal_anchor ⟨⟨2024, 2, 29⟩, 0⟩ ⟨⟨2025, 2, 28⟩, 0⟩ ⟨none, 0, 2000, 0⟩
      ⟨0, 11, 30⟩ rfl (by decide)).1,
    (DiffYMDOpts_maximal_anchor ⟨⟨2024, 2, 29⟩, 0⟩ ⟨⟨2025, 2, 28⟩, 0⟩ ⟨none, 0, 2000, 0⟩
      ⟨0, 11, 30⟩ rfl (by decide)).2⟩

/-- Witness for the default-policy range invariants: `2017-07-14` to
`2024-01-24` gives `{6, 6, 10}`, which satisfies all the bounds. -/
theorem DiffYMDOpts_default_invariants_witness :
    ((⟨none, 0, 2000, 0⟩ : DiffOptions).AddMonths = none) ∧
    DiffYMDOpts ⟨⟨2017, 7, 14⟩, 0⟩ ⟨⟨2024, 1, 24⟩, 0⟩ ⟨none, 0, 2000, 0⟩ = .ok ⟨6, 6, 10⟩ ∧
    (0 ≤ (⟨6, 6, 10⟩ : YMDiff).Years ∧ 0 ≤ (⟨6, 6, 10⟩ : YMDiff).Months ∧
      (⟨6, 6, 10⟩ : YMDiff).Months ≤ 11 ∧ 0 ≤ (⟨6, 6, 10⟩ : YMDiff).Days ∧
      ((⟨⟨2017, 7, 14⟩, 0⟩ : GoTime).date = (⟨⟨2024, 1, 24⟩, 0⟩ : GoTime).date →
        (⟨6, 6, 10⟩ : YMDiff) = ⟨0, 0, 0⟩)) :=
  ⟨rfl, by decide,
    DiffYMDOpts_default_invariants ⟨⟨2017, 7, 14⟩, 0⟩ ⟨⟨2024, 1, 24⟩, 0⟩ ⟨none, 0, 2000, 0⟩
      ⟨6, 6, 10⟩ rfl (by decide)⟩

/-- Witness for the final-anchor theorem on an input that exercises the
defensive branch: `2023-01-31` to `2023-03-02` yields `{0, 0, 30}` with a
non-negative leftover and a final anchor not after the end. -/
theorem DiffYMDOpts_default_final_anchor_witness :
    ((⟨none, 0, 2000, 0⟩ : DiffOptions).AddMonths = none) ∧
    DiffYMDOpts ⟨⟨2023, 1, 31⟩, 0⟩ ⟨⟨2023, 3, 2⟩, 0⟩ ⟨none, 0, 2000, 0⟩ = .ok ⟨0, 0, 30⟩ ∧
    (0 ≤ (⟨0, 0, 30⟩ : YMDiff).Days ∧
      after (defaultAddMonths (goMidnight ⟨⟨2023, 1, 31⟩, 0⟩)
        (12 * (⟨0, 0, 30⟩ : YMDiff).Years + (⟨0, 0, 30⟩ : YMDiff).Months))
        (goMidnight ⟨⟨2023, 3, 2⟩, 0⟩) = false) :=
  ⟨rfl, by decide,
    DiffYMDOpts_default_final_anchor ⟨⟨2023, 1, 31⟩, 0⟩ ⟨⟨2023, 3, 2⟩, 0⟩ ⟨none, 0, 2000, 0⟩
      ⟨0, 0, 30⟩ rfl (by decide)⟩
